import Mathlib

/-!
Verification of the sponsored-USDC-transfer orchestrator
(`src/hooks/useTransfer.ts`), the USDC balance aggregation endpoint
(`src/app/api/usdc-balance/route.ts`) and the insufficient-balance gate of
the UI component (`src/components/WalletCard.tsx` / `MetaKeepApp`).

The TypeScript source is shallowly embedded:

* JavaScript numbers are modelled as the exact rational values of IEEE 754
  binary64 doubles, represented by unnormalized numerator/denominator
  pairs (`Frac`) so that every arithmetic step is kernel-computable.
  `fl64` is round-to-nearest, ties-to-even at 53 significant bits
  (overflow and subnormals never occur at the magnitudes the program
  handles and are not modelled); `jsAdd`/`jsMul` round after the exact
  operation, exactly as JavaScript arithmetic does.
* Byte buffers are `List Nat` with every element below 256.
* The `@solana/web3.js` v1 `Transaction` class (`compileMessage`,
  `addSignature`, `serializeMessage`, `serialize`) and the
  `@solana/spl-token` instruction builders used by the hook are embedded
  from their library sources, since the orchestrator's control flow runs
  through them.  Public keys are opaque naturals; the exact binary message
  layout (shortvec encodings, base-58 tie-breaking in the account sort) is
  abstracted by a concrete structural encoding, which the orchestrator only
  ever treats as an opaque byte payload.
* Every network interaction of one `transferUSDC` attempt is driven by an
  environment `Env` of oracle responses and recorded in an event trace, so
  temporal claims ("no submission call occurs") become statements about
  the trace list.
-/

/-! ### JavaScript number model (IEEE 754 binary64 as exact rationals) -/

/-- Exact rational numbers as raw numerator/denominator pairs.  Every value
the embedding constructs has a positive denominator, and no normalization
is performed, which keeps all arithmetic kernel-computable.  `Frac.toRat`
relates a value to the mathematical rational it denotes. -/
structure Frac where
  num : ℤ
  den : ℤ
deriving DecidableEq

/-- Denoted rational value of a fraction. -/
def Frac.toRat (a : Frac) : ℚ := (a.num : ℚ) / (a.den : ℚ)

/-- Embed an integer. -/
def Frac.ofInt (n : ℤ) : Frac := ⟨n, 1⟩

/-- Exact addition. -/
def Frac.add (a b : Frac) : Frac := ⟨a.num * b.den + b.num * a.den, a.den * b.den⟩

/-- Exact multiplication. -/
def Frac.mul (a b : Frac) : Frac := ⟨a.num * b.num, a.den * b.den⟩

/-- Exact negation. -/
def Frac.neg (a : Frac) : Frac := ⟨-a.num, a.den⟩

/-- Value comparison (valid because denominators are positive). -/
def Frac.lt (a b : Frac) : Bool := decide (a.num * b.den < b.num * a.den)

/-- Value comparison, non-strict (valid because denominators are positive). -/
def Frac.le (a b : Frac) : Bool := decide (a.num * b.den ≤ b.num * a.den)

/-- Value equality test (valid because denominators are positive). -/
def Frac.eqv (a b : Frac) : Bool := decide (a.num * b.den = b.num * a.den)

/-- Floor of the denoted value (floor division of numerator by denominator). -/
def Frac.floor (a : Frac) : ℤ := Int.fdiv a.num a.den

/-- Double the value without growing the denominator. -/
def Frac.double (a : Frac) : Frac := ⟨2 * a.num, a.den⟩

/-- Halve the value. -/
def Frac.halve (a : Frac) : Frac := ⟨a.num, 2 * a.den⟩

/-- Round a fraction to the nearest integer, ties to the even integer. -/
def roundHalfEven (q : Frac) : ℤ :=
  let f := q.floor
  let r := q.add (Frac.neg (Frac.ofInt f))
  if r.lt ⟨1, 2⟩ then f
  else if Frac.lt ⟨1, 2⟩ r then f + 1
  else if f % 2 = 0 then f else f + 1

/-- Double the mantissa candidate until it reaches the 53-bit window.  The
fuel bound is far above the binary64 exponent range, so it is never
exhausted for the magnitudes the program computes with. -/
def scaleUp : ℕ → Frac → ℤ → Frac × ℤ
  | 0, q, e => (q, e)
  | Nat.succ fuel, q, e =>
    if q.lt ⟨2^52, 1⟩ then scaleUp fuel q.double (e - 1) else (q, e)

/-- Halve the mantissa candidate until it is below the 53-bit window. -/
def scaleDown : ℕ → Frac → ℤ → Frac × ℤ
  | 0, q, e => (q, e)
  | Nat.succ fuel, q, e =>
    if Frac.le ⟨2^53, 1⟩ q then scaleDown fuel q.halve (e + 1) else (q, e)

/-- Multiply an integer by a (possibly negative) power of two. -/
def mulPow2 (m : ℤ) (e : ℤ) : Frac :=
  if 0 ≤ e then ⟨m * ((2^(e.toNat) : ℕ) : ℤ), 1⟩ else ⟨m, ((2^((-e).toNat) : ℕ) : ℤ)⟩

/-- Round a positive fraction to the nearest binary64 value
(round-to-nearest, ties-to-even, 53 significant bits). -/
def fl64Pos (q : Frac) : Frac :=
  let p1 := scaleUp 1200 q 0
  let p2 := scaleDown 1200 p1.1 p1.2
  mulPow2 (roundHalfEven p2.1) p2.2

/-- Round a fraction to the nearest binary64 value. -/
def fl64 (q : Frac) : Frac :=
  if q.eqv ⟨0, 1⟩ then ⟨0, 1⟩
  else if Frac.lt ⟨0, 1⟩ q then fl64Pos q
  else Frac.neg (fl64Pos q.neg)

/-- JavaScript `+` on numbers: exact sum, rounded to binary64. -/
def jsAdd (a b : Frac) : Frac := fl64 (a.add b)

/-- JavaScript `*` on numbers: exact product, rounded to binary64. -/
def jsMul (a b : Frac) : Frac := fl64 (a.mul b)

/-- Embeds `Math.floor(amount * 1_000_000)` from `useTransfer.ts` line 92:
the USDC base-unit amount placed into the transfer instruction. -/
def transferAmountBaseUnits (amount : Frac) : ℤ := (jsMul amount (Frac.ofInt 1000000)).floor

/-- Embeds `Number.prototype.toFixed(2)` (ECMA-262): the integer `n` for
which `n / 100` is as close as possible to the number, the larger `n` on
ties; the route's `balance` string renders `n` with two decimals, so the
reported balance value is exactly `n / 100`. -/
def toFixedCents (x : Frac) : ℤ := (Frac.add (Frac.mul (Frac.ofInt 100) x) ⟨1, 2⟩).floor

set_option maxRecDepth 20000

/-! ### Byte codec (`hexToUint8Array` and the hex encoding of message bytes)

`useTransfer.ts` lines 29-36 define

  const hexToUint8Array = (hex: string) => {
    const cleanHex = hex.startsWith("0x") ? hex.slice(2) : hex;
    const bytes = new Uint8Array(cleanHex.length / 2);
    for (let i = 0; i < cleanHex.length; i += 2) {
      bytes[i / 2] = parseInt(cleanHex.substring(i, i + 2), 16);
    }
    return bytes;
  };

and lines 118-120 build the hex encoding of the serialized message:

  const serializedMessageHex = the string "0x" followed by
    Array.from(serializedMessage).map(byte => byte.toString(16).padStart(2, "0")).join("")

Relevant ECMAScript semantics embedded here: `new Uint8Array(n)` truncates
a fractional length (`ToIndex` uses `ToIntegerOrInfinity`), so an
odd-length `cleanHex` yields `(length - 1) / 2` slots; a store at an
out-of-bounds index of a typed array is silently ignored, which drops the
final lone character; storing `NaN` (from an unparsable pair) stores 0,
and stored values are wrapped modulo 256 (`ToUint8`); `parseInt(s, 16)`
skips leading whitespace, accepts an optional sign, strips a leading
`0x`/`0X`, parses the longest hexadecimal prefix and yields NaN if that
prefix is empty. -/

/-- Value of one hexadecimal digit character, if it is one. -/
def hexDigitVal (c : Char) : Option ℕ :=
  if ('0' ≤ c ∧ c ≤ '9') then some (c.toNat - '0'.toNat)
  else if ('a' ≤ c ∧ c ≤ 'f') then some (c.toNat - 'a'.toNat + 10)
  else if ('A' ≤ c ∧ c ≤ 'F') then some (c.toNat - 'A'.toNat + 10)
  else none

/-- JavaScript whitespace and line-terminator characters, which
`parseInt` skips and `trim` removes: TAB, LF, VT, FF, CR, SP, NBSP,
Ogham space mark, the U+2000 - U+200A spaces, LS, PS, NNBSP, MMSP,
ideographic space and ZWNBSP. -/
def isJsSpace (c : Char) : Bool :=
  c = ' ' ∨ c = '\t' ∨ c = '\n' ∨ c = '\r'
    ∨ c.toNat = 11 ∨ c.toNat = 12 ∨ c.toNat = 160 ∨ c.toNat = 5760
    ∨ (8192 ≤ c.toNat ∧ c.toNat ≤ 8202)
    ∨ c.toNat = 8232 ∨ c.toNat = 8233 ∨ c.toNat = 8239 ∨ c.toNat = 8287
    ∨ c.toNat = 12288 ∨ c.toNat = 65279

/-- Accumulate the value of the longest hexadecimal prefix; `none` when no
digit has been consumed. -/
def hexPrefixVal : List Char → Option ℕ → Option ℕ
  | [], acc => acc
  | c :: rest, acc =>
    match hexDigitVal c with
    | some d => hexPrefixVal rest (some ((acc.getD 0) * 16 + d))
    | none => acc

/-- Embeds `parseInt(s, 16)`: `none` is NaN. -/
def parseIntHexChars (s : List Char) : Option ℤ :=
  let s1 := s.dropWhile isJsSpace
  let signed : Bool × List Char :=
    match s1 with
    | c :: rest => if c = '-' then (true, rest) else if c = '+' then (false, rest) else (false, s1)
    | [] => (false, [])
  let body : List Char :=
    match signed.2 with
    | '0' :: c :: rest => if c = 'x' ∨ c = 'X' then rest else signed.2
    | l => l
  match hexPrefixVal body none with
  | none => none
  | some v => some (if signed.1 then -(v : ℤ) else (v : ℤ))

/-- Embeds the `ToUint8` conversion performed by a `Uint8Array` store:
NaN becomes 0, other values are wrapped modulo 256. -/
def jsToUint8 (v : Option ℤ) : ℕ := match v with | none => 0 | some z => (z % 256).toNat

/-- Split a character list into the 2-character chunks
`substring(i, i + 2)` visits (the final chunk is lone on odd input). -/
def hexPairs : List Char → List (List Char)
  | [] => []
  | [c] => [[c]]
  | c1 :: c2 :: rest => [c1, c2] :: hexPairs rest

/-- Embeds `hex.startsWith("0x") ? hex.slice(2) : hex`. -/
def strip0x : List Char → List Char
  | '0' :: 'x' :: rest => rest
  | l => l

/-- Embeds `hexToUint8Array` (`useTransfer.ts` lines 29-36).  The typed
array has `cleanHex.length / 2` (truncated) slots; the write of the final
lone chunk of an odd-length input lands out of bounds and is ignored,
which the `take` models. -/
def hexToUint8Array (hex : String) : List ℕ :=
  let cleanHex := strip0x hex.data
  ((hexPairs cleanHex).take (cleanHex.length / 2)).map (fun p => jsToUint8 (parseIntHexChars p))

/-- Embeds `byte.toString(16).padStart(2, "0")` for a byte value. -/
def byteToHexChars (b : ℕ) : List Char :=
  let ds := Nat.toDigits 16 b
  List.replicate (2 - ds.length) '0' ++ ds

/-- Embeds the construction of `serializedMessageHex`
(`useTransfer.ts` lines 118-120): lowercase, even-length, `0x`-prefixed. -/
def encodeHex (bytes : List ℕ) : String :=
  ⟨'0' :: 'x' :: bytes.flatMap byteToHexChars⟩


/-! ### `@solana/web3.js` v1 `Transaction` and `@solana/spl-token` model

`useTransfer.ts` drives its control flow through the v1 `Transaction`
class; its behaviour on transactions that are missing a recent blockhash
or a fee payer decides several claims, so `compileMessage`,
`addSignature`, `serializeMessage` and `serialize` are embedded from the
library source.  Public keys are opaque naturals; associated token
account derivation (a program-derived address, opaque to the caller) is
modelled by an injective pairing; the account-sort tie break on base-58
key strings and the exact shortvec binary layout are abstracted (no claim
inspects them), while header counts, signer ordering and the
fee-payer-first rule follow the library.  The ed25519 check performed by
`serialize` via nacl is an oracle boolean supplied by the environment. -/

abbrev PubKey := ℕ

/-- SPL token program id (opaque distinct constant). -/
def TOKEN_PROGRAM_ID : PubKey := 1000001

/-- Associated-token-account program id (opaque distinct constant). -/
def ASSOCIATED_TOKEN_PROGRAM_ID : PubKey := 1000002

/-- System program id (opaque distinct constant). -/
def SYSTEM_PROGRAM_ID : PubKey := 1000003

/-- Embeds `getAssociatedTokenAddress(mint, owner)`: a deterministic,
injective derivation, opaque to the orchestrator. -/
def getAssociatedTokenAddress (mint owner : PubKey) : PubKey := 2000000 + Nat.pair mint owner

/-- Account metadata entry of an instruction. -/
structure AccountMeta where
  pubkey : PubKey
  isSigner : Bool
  isWritable : Bool
deriving DecidableEq

/-- A transaction instruction: program id, account metas, data bytes. -/
structure Instruction where
  programId : PubKey
  keys : List AccountMeta
  data : List ℕ
deriving DecidableEq

/-- Little-endian byte encoding of a natural number in a fixed width. -/
def natToBytesLE : ℕ → ℕ → List ℕ
  | 0, _ => []
  | Nat.succ w, v => (v % 256) :: natToBytesLE w (v / 256)

/-- Embeds the u64 amount encoding of `@solana/spl-token`.  The library
throws a RangeError outside `[0, 2^64)`; all amounts the claims exercise
are in range, and out-of-range values are wrapped for totality. -/
def u64LE (amount : ℤ) : List ℕ := natToBytesLE 8 ((amount % ((2:ℤ)^(64:ℕ))).toNat)

/-- Embeds `createTransferInstruction(source, destination, owner, amount)`
of `@solana/spl-token`: the owner is the only signer, the data is the
`Transfer` discriminator (3) followed by the u64 amount. -/
def createTransferInstruction (source destination owner : PubKey) (amount : ℤ) : Instruction :=
  { programId := TOKEN_PROGRAM_ID
    keys := [⟨source, false, true⟩, ⟨destination, false, true⟩, ⟨owner, true, false⟩]
    data := 3 :: u64LE amount }

/-- Embeds `createAssociatedTokenAccountInstruction(payer, associatedToken,
owner, mint)` of `@solana/spl-token`: the funding payer is the only
signer; the instruction data is empty. -/
def createAssociatedTokenAccountInstruction (payer associatedToken owner mint : PubKey) : Instruction :=
  { programId := ASSOCIATED_TOKEN_PROGRAM_ID
    keys := [⟨payer, true, true⟩, ⟨associatedToken, false, true⟩, ⟨owner, false, false⟩,
             ⟨mint, false, false⟩, ⟨SYSTEM_PROGRAM_ID, false, false⟩, ⟨TOKEN_PROGRAM_ID, false, false⟩]
    data := [] }

/-- One slot of `Transaction.signatures`. -/
structure SignaturePubkeyPair where
  publicKey : PubKey
  signature : Option (List ℕ)
deriving DecidableEq

/-- The mutable `Transaction` object of `@solana/web3.js` v1; a fresh
`new Transaction()` has no blockhash, no fee payer and no signatures. -/
structure Transaction where
  instructions : List Instruction
  recentBlockhash : Option (List ℕ)
  feePayer : Option PubKey
  signatures : List SignaturePubkeyPair
deriving DecidableEq

/-- Embeds `new Transaction()`. -/
def Transaction.new : Transaction := ⟨[], none, none, []⟩

/-- Embeds `transaction.add(instruction)`. -/
def Transaction.add (tx : Transaction) (ix : Instruction) : Transaction :=
  { tx with instructions := tx.instructions ++ [ix] }

/-- A compiled instruction: indices into the message account keys. -/
structure CompiledIx where
  programIdIndex : ℕ
  accounts : List ℕ
  data : List ℕ
deriving DecidableEq

/-- The compiled, signature-free message of a transaction. -/
structure Message where
  numRequiredSignatures : ℕ
  numReadonlySignedAccounts : ℕ
  numReadonlyUnsignedAccounts : ℕ
  accountKeys : List PubKey
  recentBlockhash : List ℕ
  instructions : List CompiledIx
deriving DecidableEq

/-- Merge an account meta into the deduplicated list, OR-ing the flags on
a duplicate key, as `compileMessage` does. -/
def mergeMeta (ms : List AccountMeta) (m : AccountMeta) : List AccountMeta :=
  if ms.any (fun x => x.pubkey == m.pubkey) then
    ms.map (fun x =>
      if x.pubkey == m.pubkey then
        { x with isSigner := x.isSigner || m.isSigner, isWritable := x.isWritable || m.isWritable }
      else x)
  else ms ++ [m]

/-- Collect each instruction's program id once, in first-appearance order. -/
def uniqueProgramIds (ixs : List Instruction) : List PubKey :=
  ixs.foldl (fun acc ix => if acc.any (fun p => p == ix.programId) then acc else acc ++ [ix.programId]) []

/-- Collect and deduplicate the account metas of all instructions plus
their program ids (as readonly non-signers). -/
def collectMetas (ixs : List Instruction) : List AccountMeta :=
  ((ixs.flatMap (fun ix => ix.keys)) ++ (uniqueProgramIds ixs).map (fun p => (⟨p, false, false⟩ : AccountMeta))).foldl mergeMeta []

/-- Sort priority used by `compileMessage`: signers first, then writable. -/
def metaRank (m : AccountMeta) : ℕ :=
  (if m.isSigner then 0 else 2) + (if m.isWritable then 0 else 1)

/-- Stable insertion for the account sort (the library's base-58 tie break
is abstracted; ties keep first-appearance order). -/
def insertMeta (m : AccountMeta) : List AccountMeta → List AccountMeta
  | [] => [m]
  | x :: xs => if metaRank x ≤ metaRank m then x :: insertMeta m xs else m :: x :: xs

/-- Stable sort of the account metas by `metaRank`. -/
def sortMetas (ms : List AccountMeta) : List AccountMeta :=
  ms.foldl (fun acc m => insertMeta m acc) []

/-- Account keys of the message: the fee payer always first, as a writable
signer; any other occurrence of it is removed. -/
def compileKeys (feePayer : PubKey) (ixs : List Instruction) : List AccountMeta :=
  ⟨feePayer, true, true⟩ :: (sortMetas (collectMetas ixs)).filter (fun m => !(m.pubkey == feePayer))

/-- Index of a key in the account key list (0 when absent, as the
library's `indexOf` result is only used for present keys). -/
def keyIndex (k : PubKey) : List PubKey → ℕ
  | [] => 0
  | x :: xs => if x == k then 0 else keyIndex k xs + 1

/-- Compile one instruction to account-key indices. -/
def compileIx (keys : List PubKey) (ix : Instruction) : CompiledIx :=
  ⟨keyIndex ix.programId keys, ix.keys.map (fun m => keyIndex m.pubkey keys), ix.data⟩

/-- Embeds `Transaction.prototype.compileMessage`: throws (returns
`Except.error` with the library's message) when the recent blockhash is
missing, or when no fee payer is set and there is no first signature to
fall back on. -/
def Transaction.compileMessage (tx : Transaction) : Except String Message :=
  match tx.recentBlockhash with
  | none => .error ("Transaction recentBlockhash required")
  | some bh =>
    match (match tx.feePayer with
           | some fp => some fp
           | none =>
             match tx.signatures with
             | p :: _ => some p.publicKey
             | [] => none) with
    | none => .error ("Transaction fee payer required")
    | some fp =>
      let metas := compileKeys fp tx.instructions
      let keys := metas.map (fun m => m.pubkey)
      .ok { numRequiredSignatures := (metas.filter (fun m => m.isSigner)).length
            numReadonlySignedAccounts := (metas.filter (fun m => m.isSigner && !m.isWritable)).length
            numReadonlyUnsignedAccounts := (metas.filter (fun m => !m.isSigner && !m.isWritable)).length
            accountKeys := keys
            recentBlockhash := bh
            instructions := tx.instructions.map (compileIx keys) }

/-- Concrete structural encoding of a compiled instruction (the exact
shortvec layout is abstracted; the orchestrator never inspects it). -/
def encodeCompiledIx (ci : CompiledIx) : List ℕ :=
  [ci.programIdIndex % 256, ci.accounts.length % 256] ++ ci.accounts.map (fun a => a % 256)
    ++ [ci.data.length % 256] ++ ci.data

/-- Concrete structural encoding of a message to bytes: header, account
keys (32 bytes each), blockhash, compiled instructions. -/
def encodeMessage (m : Message) : List ℕ :=
  [m.numRequiredSignatures % 256, m.numReadonlySignedAccounts % 256,
   m.numReadonlyUnsignedAccounts % 256, m.accountKeys.length % 256]
  ++ m.accountKeys.flatMap (natToBytesLE 32)
  ++ m.recentBlockhash
  ++ [m.instructions.length % 256]
  ++ m.instructions.flatMap encodeCompiledIx

/-- Embeds the `_compile` population of the signature slots: one slot per
required signer of the compiled message, in message order, preserving the
existing slots when they already match. -/
def Transaction.sigSlots (tx : Transaction) : Except String (List SignaturePubkeyPair) :=
  match tx.compileMessage with
  | .error m => .error m
  | .ok msg =>
    let signedKeys := msg.accountKeys.take msg.numRequiredSignatures
    if tx.signatures.length = signedKeys.length
        ∧ (tx.signatures.zip signedKeys).all (fun p => p.1.publicKey == p.2) then
      .ok tx.signatures
    else
      .ok (signedKeys.map (fun k => ⟨k, none⟩))

/-- Embeds `transaction.addSignature(pubkey, signature)`: compiles the
slots, enforces the library's `invariant(signature.length === 64)` (a
failed invariant throws an assertion error), then stores the signature
bytes at the slot bound to `pubkey`; throws on an unknown signer. -/
def Transaction.addSignature (tx : Transaction) (pubkey : PubKey) (sig : List ℕ) : Except String Transaction :=
  match tx.sigSlots with
  | .error m => .error m
  | .ok sigs =>
    if sig.length = 64 then
      if sigs.any (fun p => p.publicKey == pubkey) then
        .ok { tx with signatures :=
                sigs.map (fun p => if p.publicKey == pubkey then ⟨p.publicKey, some sig⟩ else p) }
      else .error ("unknown signer")
    else .error ("Assertion failed")

/-- Embeds `transaction.serializeMessage()`: the compiled message bytes,
containing no signature values. -/
def Transaction.serializeMessage (tx : Transaction) : Except String (List ℕ) :=
  match tx.compileMessage with
  | .error m => .error m
  | .ok msg => .ok (encodeMessage msg)

/-- Embeds `transaction.serialize(config)`: compiles the message, runs
`_verifySignatures` (missing signatures are only tolerated when
`requireAllSignatures` is false; present signatures must pass the nacl
ed25519 check, an oracle boolean here), then emits signatures followed by
the message bytes. -/
def Transaction.serialize (tx : Transaction) (requireAllSignatures naclOk : Bool) : Except String (List ℕ) :=
  match tx.compileMessage with
  | .error m => .error m
  | .ok msg =>
    let sigOk := tx.signatures.all (fun p =>
      match p.signature with
      | none => !requireAllSignatures
      | some _ => naclOk)
    if !sigOk then .error ("Signature verification failed")
    else .ok ([tx.signatures.length % 256]
              ++ tx.signatures.flatMap (fun p => p.signature.getD (List.replicate 64 0))
              ++ encodeMessage msg)

/-! ### The `transferUSDC` attempt (`useTransfer.ts` lines 48-167)

One attempt is a straight-line sequence of suspending calls.  Every
response the outside world can give is a field of `Env`; every outgoing
interaction is recorded as an `Event`, in program order, so that claims
about what was contacted (and what was not) are statements about the
resulting trace.  An attempt ends in `Except.ok` (the JS return value) or
`Except.error` (the JS throw), and always settles the React state exactly
as the `setTransferState` calls on lines 152 and 160-164 do. -/

/-- The reactive `TransferState` of the hook (`useTransfer.ts` lines 19-26). -/
structure TransferState where
  isTransferring : Bool
  error : Option String
  success : Bool
deriving DecidableEq

/-- The parsed JSON body answered by `/api/metakeep-sign` for the
developer-signature request: HTTP ok flag, `status`, optional `signature`
and `message` fields. -/
structure DevSignResponse where
  ok : Bool
  status : String
  signature : Option String
  message : Option String
deriving DecidableEq

/-- Oracle responses of the outside world for one transfer attempt. -/
structure Env where
  ataExists : Bool
  ataSignOk : Bool
  blockhash : List ℕ
  userSig : Option String
  devSign : DevSignResponse
  naclOk : Bool
  sendSig : String
  confirmErr : Option String
deriving DecidableEq

/-- Outgoing interactions of one attempt, in program order.  The
human-readable memo passed to `sdk.signTransaction` is presentational and
not modelled. -/
inductive Event where
  | getAccountInfo (address : PubKey)
  | fetchAtaSign (serializedSetupTx : List ℕ)
  | getLatestBlockhash
  | sdkSignTransaction (tx : Transaction)
  | fetchDevSign (serializedTransactionMessage : String)
  | sendRawTransaction (rawTransaction : List ℕ)
  | confirmTransaction (signature : String)
deriving DecidableEq

/-- The distinct `throw` sites of `transferUSDC` (plus exceptions
propagating out of the web3.js library calls). -/
inductive TransferError where
  | setupSerialize (msg : String)
  | setupSignHttp
  | noUserSignature
  | web3Error (msg : String)
  | devSignHttp
  | devSignRejected (msg : Option String)
  | txFailed (err : String)
deriving DecidableEq

/-- Embeds JavaScript `a || b` for an optional string field: `null`,
`undefined` and the empty string fall through to the default. -/
def jsOrString (s : Option String) (dflt : String) : String :=
  match s with
  | none => dflt
  | some v => if v = "" then dflt else v

/-- Embeds JavaScript falsiness of the optional `signature` field
(`!developerSignature.signature`): missing or empty. -/
def sigFalsy (s : Option String) : Bool :=
  match s with
  | none => true
  | some v => v = ""

/-- The `error.message` string each throw site surfaces
(`error instanceof Error ? error.message : "Unknown error"`). -/
def errMessage : TransferError → String
  | .setupSerialize m => m
  | .setupSignHttp => "Failed to create User B USDC token account."
  | .noUserSignature => "User signature was not provided by MetaKeep."
  | .web3Error m => m
  | .devSignHttp => "Developer signing request failed."
  | .devSignRejected m => jsOrString m ("Developer signing failed without a message.")
  | .txFailed e => "Transaction failed: " ++ e

/-- Outcomes that mean the sponsor-side signing call reported failure
(non-OK HTTP response landing on line 129, or non-success status /
missing signature landing on line 133). -/
def isSponsorSigningFailure : TransferError → Bool
  | .devSignHttp => true
  | .devSignRejected _ => true
  | _ => false

/-- The JS return value of a successful attempt (lines 153-158). -/
structure TransferResult where
  signature : String
  userSignature : String
  developerSignature : DevSignResponse
deriving DecidableEq

/-- Decidable equality for `Except` results. -/
instance instDecEqExcept {ε α : Type} [DecidableEq ε] [DecidableEq α] : DecidableEq (Except ε α) :=
  fun a b =>
    match a, b with
    | .error e1, .error e2 =>
      if h : e1 = e2 then .isTrue (by rw [h]) else .isFalse (by simp [h])
    | .ok v1, .ok v2 =>
      if h : v1 = v2 then .isTrue (by rw [h]) else .isFalse (by simp [h])
    | .error _, .ok _ => .isFalse (by simp)
    | .ok _, .error _ => .isFalse (by simp)

/-- Result, trace and settled React state of one attempt. -/
structure RunOutput where
  result : Except TransferError TransferResult
  trace : List Event
  finalState : TransferState
deriving DecidableEq

/-- A throwing exit: the catch block of lines 159-166. -/
def mkFail (e : TransferError) (trace : List Event) : RunOutput :=
  { result := .error e
    trace := trace
    finalState := { isTransferring := false, error := some (errMessage e), success := false } }

/-- The setup transaction built on lines 70-76 when the recipient's token
account is absent: a single instruction added to a fresh transaction;
neither `feePayer` nor `recentBlockhash` is ever assigned to it. -/
def ataTransactionOf (dev userBATA userB mint : PubKey) : Transaction :=
  Transaction.add Transaction.new (createAssociatedTokenAccountInstruction dev userBATA userB mint)

/-- Lines 138-150: attach the developer signature, serialize the fully
signed transaction, submit it and await confirmation. -/
def afterDevSig (env : Env) (dev : PubKey) (tx2 : Transaction) (us ds : String) (ev : List Event) : RunOutput :=
  match Transaction.addSignature tx2 dev (hexToUint8Array ds) with
  | .error m => mkFail (.web3Error m) ev
  | .ok tx3 =>
    match Transaction.serialize tx3 true env.naclOk with
    | .error m => mkFail (.web3Error m) ev
    | .ok raw =>
      let ev1 := ev ++ [Event.sendRawTransaction raw]
      let ev2 := ev1 ++ [Event.confirmTransaction env.sendSig]
      match env.confirmErr with
      | some e => mkFail (.txFailed e) ev2
      | none =>
        { result := .ok { signature := env.sendSig, userSignature := us, developerSignature := env.devSign }
          trace := ev2
          finalState := { isTransferring := false, error := none, success := true } }

/-- Lines 112-137: attach the sender signature, hex-encode the serialized
message, request the developer signature and check the response. -/
def afterUserSig (env : Env) (userA dev : PubKey) (tx1 : Transaction) (us : String) (ev : List Event) : RunOutput :=
  match Transaction.addSignature tx1 userA (hexToUint8Array us) with
  | .error m => mkFail (.web3Error m) ev
  | .ok tx2 =>
    match Transaction.serializeMessage tx2 with
    | .error m => mkFail (.web3Error m) ev
    | .ok serializedMessage =>
      let ev1 := ev ++ [Event.fetchDevSign (encodeHex serializedMessage)]
      if !env.devSign.ok then mkFail .devSignHttp ev1
      else if !(env.devSign.status == "SUCCESS") || sigFalsy env.devSign.signature then
        mkFail (.devSignRejected env.devSign.message) ev1
      else afterDevSig env dev tx2 us (env.devSign.signature.getD ("")) ev1

/-- Lines 92-111: build the transfer transaction, bind the freshness
token and fee payer, and request the sender's signature. -/
def afterAta (env : Env) (userA dev userAATA userBATA : PubKey) (amount : Frac) (ev : List Event) : RunOutput :=
  let transferAmount := transferAmountBaseUnits amount
  let tx0 := Transaction.add Transaction.new (createTransferInstruction userAATA userBATA userA transferAmount)
  let ev1 := ev ++ [Event.getLatestBlockhash]
  let tx1 := { tx0 with recentBlockhash := some env.blockhash, feePayer := some dev }
  let ev2 := ev1 ++ [Event.sdkSignTransaction tx1]
  match env.userSig with
  | none => mkFail .noUserSignature ev2
  | some us => afterUserSig env userA dev tx1 us ev2

/-- Embeds `transferUSDC(connection, sdk, userAWallet, userBWallet,
devWallet, amount)` (`useTransfer.ts` lines 48-167).  The recipient
token-account branch of lines 68-90 serializes the fresh setup
transaction while building the fetch body; `serialize` throws there
because the setup transaction has no recent blockhash, so the fetch is
never reached in that branch. -/
def transferUSDC (env : Env) (userAWallet userBWallet devWallet usdcMint : PubKey) (amount : Frac) : RunOutput :=
  let userAATA := getAssociatedTokenAddress usdcMint userAWallet
  let userBATA := getAssociatedTokenAddress usdcMint userBWallet
  let ev0 := [Event.getAccountInfo userBATA]
  if env.ataExists then
    afterAta env userAWallet devWallet userAATA userBATA amount ev0
  else
    match Transaction.serialize (ataTransactionOf devWallet userBATA userBWallet usdcMint) false env.naclOk with
    | .error m => mkFail (.setupSerialize m) ev0
    | .ok setupBytes =>
      let ev1 := ev0 ++ [Event.fetchAtaSign setupBytes]
      if !env.ataSignOk then mkFail .setupSignHttp ev1
      else afterAta env userAWallet devWallet userAATA userBATA amount ev1

/-- Does the trace contain a ledger submission (`sendRawTransaction`)? -/
def hasSendRaw (t : List Event) : Bool :=
  t.any (fun e => match e with | .sendRawTransaction _ => true | _ => false)

/-- Does the trace contain the sponsor-signature request? -/
def hasFetchDevSign (t : List Event) : Bool :=
  t.any (fun e => match e with | .fetchDevSign _ => true | _ => false)

/-- Does the trace contain the setup-transaction signing request? -/
def hasFetchAtaSign (t : List Event) : Bool :=
  t.any (fun e => match e with | .fetchAtaSign _ => true | _ => false)

/-- Does the trace contain a call to the sender's external signer? -/
def hasSdkSign (t : List Event) : Bool :=
  t.any (fun e => match e with | .sdkSignTransaction _ => true | _ => false)

/-- The payloads sent to the sponsor's signer, in order. -/
def devSignHexes (t : List Event) : List String :=
  t.filterMap (fun e => match e with | .fetchDevSign h => some h | _ => none)

/-- Is the run's error outcome a sponsor-signing failure? -/
def resultSponsorFailure (r : Except TransferError TransferResult) : Bool :=
  match r with
  | .error e => isSponsorSigningFailure e
  | .ok _ => false

/-! ### Balance aggregation endpoint (`src/app/api/usdc-balance/route.ts`)
and the insufficient-USDC gate of `MetaKeepApp`
(`src/components/WalletCard.tsx` lines 123-161 and 214-243)

The route sums the `uiAmount` of every token account the RPC reports
(`uiAmount || 0`, so a missing value counts as zero), formats the double
sum with `toFixed(2)` and answers `{ status: "SUCCESS", balance }`.  The
reported balance value is therefore `cents / 100` for the integer `cents`
computed by `toFixedCents`.  The UI label appends " USDC"; the gate
effect strips the suffix, parses the number back (`parseFloat` of an
exact two-decimal string is the binary64 nearest value of `cents / 100`)
and compares it with `<` against the configured transfer amount. -/

/-- The JSON answer of the balance route: `status`, the reported balance
in cents (the value of the `toFixed(2)` string), and the HTTP status. -/
structure RouteResponse where
  status : String
  balanceCents : Option ℤ
  httpStatus : ℕ
deriving DecidableEq

/-- Character class of the address shape check
`/^[1-9A-HJ-NP-Za-km-z]{32,44}$/`. -/
def isBase58Char (c : Char) : Bool :=
  ('1' ≤ c ∧ c ≤ '9') ∨ ('A' ≤ c ∧ c ≤ 'H') ∨ ('J' ≤ c ∧ c ≤ 'N')
    ∨ ('P' ≤ c ∧ c ≤ 'Z') ∨ ('a' ≤ c ∧ c ≤ 'k') ∨ ('m' ≤ c ∧ c ≤ 'z')

/-- Embeds `address.trim()` (JavaScript whitespace trimming). -/
def jsTrim (l : List Char) : List Char :=
  ((l.dropWhile isJsSpace).reverse.dropWhile isJsSpace).reverse

/-- Embeds the aggregation loop of lines 46-51:
`totalBalance += account...tokenAmount.uiAmount || 0` over the reported
accounts, in JavaScript double arithmetic. -/
def aggregateUiAmounts (uiAmounts : List (Option Frac)) : Frac :=
  uiAmounts.foldl (fun acc a => jsAdd acc (a.getD (Frac.ofInt 0))) (Frac.ofInt 0)

/-- Embeds the `POST` handler of `usdc-balance/route.ts`.  `address` is
the request's address field (`none` when absent, matching `!address`
falsiness together with the empty string).  `rpc` collapses every failure
path the catch block handles (non-OK HTTP response, RPC error object,
malformed body) into `Except.error`; a successful RPC response carries
`data.result?.value` as an optional list of per-account `uiAmount`
values (each itself optional, `|| 0`). -/
def usdcBalancePOST (address : Option String) (rpc : Except String (Option (List (Option Frac)))) : RouteResponse :=
  match address with
  | none => { status := "ERROR", balanceCents := none, httpStatus := 400 }
  | some addr =>
    if addr = "" then { status := "ERROR", balanceCents := none, httpStatus := 400 }
    else
      let t := jsTrim addr.data
      if !(t.all isBase58Char ∧ 32 ≤ t.length ∧ t.length ≤ 44) then
        { status := "ERROR", balanceCents := none, httpStatus := 400 }
      else
        match rpc with
        | .error _ => { status := "ERROR", balanceCents := none, httpStatus := 500 }
        | .ok v =>
          { status := "SUCCESS"
            balanceCents := some (toFixedCents (aggregateUiAmounts (v.getD [])))
            httpStatus := 200 }

/-- Embeds the balance-watching effect of `WalletCard.tsx` lines 143-161:
the gate flag is `parseFloat(label without " USDC") < configured amount`;
an unparsable label (`Number.isFinite` false, e.g. the "Error" label) sets
the flag.  `parseFloat` of the exact two-decimal balance string is the
binary64 nearest value of `cents / 100`. -/
def hasInsufficientUSDC (balanceCents : Option ℤ) (configuredTransferAmount : Frac) : Bool :=
  match balanceCents with
  | none => true
  | some cents => Frac.lt (fl64 ⟨cents, 100⟩) configuredTransferAmount

/-- Outcome of one click of the transfer button. -/
inductive HandleOutcome where
  | missingDetails
  | insufficientUSDC
  | transferred (r : RunOutput)
deriving DecidableEq

/-- Embeds `handleTransferUSDC` of `WalletCard.tsx` lines 214-243: the
readiness guard, then the insufficient-USDC gate (which returns before
`transferUSDC` and hence before any external signer is contacted), then
the transfer attempt itself. -/
def handleTransferUSDC (detailsReady insufficient : Bool) (run : RunOutput) : HandleOutcome :=
  if !detailsReady then .missingDetails
  else if insufficient then .insufficientUSDC
  else .transferred run


/-! ### Concrete fixtures used by the evaluated theorems -/

/-- A wallet address string of the shape the route accepts. -/
def sampleAddress : String := "AAAAAAAAAAAAAAAAAAAAAAAAAAAAAAAA"

/-- A fully cooperative environment: recipient token account present,
both signers and the ledger respond successfully. -/
def envBenign : Env :=
  { ataExists := true, ataSignOk := true, blockhash := [7]
    userSig := some (encodeHex (List.replicate 64 0))
    devSign := { ok := true, status := "SUCCESS"
                 signature := some (encodeHex (List.replicate 64 1)), message := none }
    naclOk := true, sendSig := "txsig", confirmErr := none }

/-- The benign environment with the recipient token account absent. -/
def envNoAta : Env := { envBenign with ataExists := false }

/-- The benign environment with the sponsor signing call answering a
non-OK HTTP response. -/
def envDevSignDown : Env :=
  { envBenign with
    devSign := { ok := false, status := "SUCCESS", signature := some ("00cd"), message := none } }

/-- Does the parsed sponsor-signing response report failure (non-OK HTTP
response, non-success status, or missing/empty signature field)? -/
def badDevSign (d : DevSignResponse) : Bool :=
  !d.ok || !(d.status == "SUCCESS") || sigFalsy d.signature

/-- The settled-state invariant of the hook: not transferring, and
success/error mutually exclusive. -/
def stateSettledOK (s : TransferState) : Prop :=
  s.isTransferring = false ∧ (s.success = true → s.error = none)
    ∧ (s.error ≠ none → s.success = false)

/-! ### Theorems -/

-- Every byte below 256 is encoded as exactly two hex characters that
-- parse back to the byte.
theorem byteCharsOk : ∀ x, x < 256 →
    (byteToHexChars x).length = 2 ∧ jsToUint8 (parseIntHexChars (byteToHexChars x)) = x := by
  decide

-- Length of the payload the encoder produces.
theorem flatMapByteLen (b : List ℕ) (h : ∀ x ∈ b, x < 256) :
    (b.flatMap byteToHexChars).length = 2 * b.length := by
  induction b with
  | nil => rfl
  | cons x rest ih =>
    have hx := (byteCharsOk x (h x (List.mem_cons_self x rest))).1
    have hr := ih (fun y hy => h y (List.mem_cons_of_mem x hy))
    simp only [List.flatMap_cons, List.length_append, List.length_cons, hr, hx]
    omega

-- Decoding the chunked payload recovers the byte list.
theorem hexRoundTripAux (b : List ℕ) (h : ∀ x ∈ b, x < 256) :
    ((hexPairs (b.flatMap byteToHexChars)).take ((b.flatMap byteToHexChars).length / 2)).map
      (fun p => jsToUint8 (parseIntHexChars p)) = b := by
  induction b with
  | nil => rfl
  | cons x rest ih =>
    have hx : x < 256 := h x (List.mem_cons_self x rest)
    have h2 := byteCharsOk x hx
    obtain ⟨c1, c2, hc⟩ := List.length_eq_two.mp h2.1
    have hrest : ∀ y ∈ rest, y < 256 := fun y hy => h y (List.mem_cons_of_mem x hy)
    have hparse := h2.2
    rw [hc] at hparse
    rw [List.flatMap_cons, hc]
    simp only [List.cons_append, List.nil_append]
    rw [show hexPairs (c1 :: c2 :: rest.flatMap byteToHexChars)
          = [c1, c2] :: hexPairs (rest.flatMap byteToHexChars) from rfl]
    have hlen : (c1 :: c2 :: rest.flatMap byteToHexChars).length / 2
        = (rest.flatMap byteToHexChars).length / 2 + 1 := by
      simp only [List.length_cons]
      omega
    rw [hlen, List.take_succ_cons, List.map_cons, hparse, ih hrest]

/-- C3: for every byte sequence `b`, decoding the hex encoding of `b`
yields `b` again: `hexToUint8Array (encodeHex b) = b`, where `encodeHex`
is the lowercase, even-length, `0x`-prefixed encoding built in the
sponsor-signing step. -/
theorem hex_decode_encode_roundtrip (b : List ℕ) (h : ∀ x ∈ b, x < 256) :
    hexToUint8Array (encodeHex b) = b := by
  unfold hexToUint8Array
  rw [show (encodeHex b).data = '0' :: 'x' :: b.flatMap byteToHexChars from rfl]
  rw [show strip0x ('0' :: 'x' :: b.flatMap byteToHexChars) = b.flatMap byteToHexChars from rfl]
  exact hexRoundTripAux b h

/-- C3 witness: the round trip evaluated at a concrete byte sequence. -/
theorem hex_decode_encode_roundtrip_witness :
    hexToUint8Array (encodeHex [0, 15, 171, 255]) = [0, 15, 171, 255] :=
  hex_decode_encode_roundtrip [0, 15, 171, 255] (by decide)

-- Number of chunks visited by the decoding loop.
theorem hexPairsLen : ∀ l : List Char, (hexPairs l).length = (l.length + 1) / 2
  | [] => by simp [hexPairs]
  | [_] => by simp [hexPairs]
  | _ :: _ :: rest => by
    simp only [hexPairs, List.length_cons, hexPairsLen rest]
    omega

-- The decoder always returns a buffer of half the (cleaned) input length.
theorem hexToUint8ArrayLen (s : String) :
    (hexToUint8Array s).length = (strip0x s.data).length / 2 := by
  unfold hexToUint8Array
  simp only [List.length_map, List.length_take, hexPairsLen]
  omega

/-- C4 counterexample: on the non-hexadecimal input "zz" the decoder does
not fail: it returns the byte buffer `[0]` (each unparsable pair is
stored as `NaN`, which a `Uint8Array` coerces to 0). -/
theorem hex_decode_accepts_nonhex : hexToUint8Array ("zz") = [0] := by decide

/-- C4 amended: `hexToUint8Array` never rejects its input.  It always
returns `floor(cleanHex.length / 2)` bytes; an odd-length input silently
drops its final character (the typed array has no slot for it), a pair
with no parsable hexadecimal prefix is stored as 0, and a pair with a
parsable prefix stores the prefix's value. -/
theorem hex_decode_total_behavior :
    (∀ s : String, (hexToUint8Array s).length = (strip0x s.data).length / 2) ∧
    hexToUint8Array ("abc") = [171] ∧
    hexToUint8Array ("zz") = [0] ∧
    hexToUint8Array ("0x1g") = [1] := by
  refine ⟨fun s => hexToUint8ArrayLen s, ?_, ?_, ?_⟩ <;> decide

/-- C8 counterexample: for the caller-supplied decimal amount 4.1 (the
binary64 value of the literal), the base-unit value embedded in the
transfer instruction is 4099999, not the exact representation 4100000:
the binary64 product `4.1 * 1e6` falls just below 4100000 and
`Math.floor` truncates it. -/
theorem transfer_amount_41_inexact :
    transferAmountBaseUnits (fl64 ⟨41, 10⟩) = 4099999 ∧ (4099999 : ℤ) ≠ 4100000 := by decide

/-- C8 amended: the embedded value is `Math.floor` of the binary64
product `amount * 1e6`.  This equals the exact base-unit representation
for the spec's examples (0.01 gives 10000, 0.29 gives 290000) but not for
every decimal amount: 4.1 gives 4099999 instead of 4100000. -/
theorem transfer_amount_floor_of_double :
    transferAmountBaseUnits (fl64 ⟨1, 100⟩) = 10000 ∧
    transferAmountBaseUnits (fl64 ⟨29, 100⟩) = 290000 ∧
    transferAmountBaseUnits (fl64 ⟨41, 10⟩) = 4099999 := by decide

/-- C9 counterexample: for one owner with two token accounts holding
0.001 and 0.002 USDC (uiAmounts, i.e. already scaled by the token's
decimal factor), the route reports balance 0 (the `toFixed(2)` string
"0.00"), which is not the exact scaled sum 0.003. -/
theorem balance_not_exact_sum :
    usdcBalancePOST (some sampleAddress)
        (.ok (some [some (fl64 ⟨1, 1000⟩), some (fl64 ⟨1, 500⟩)]))
      = { status := "SUCCESS", balanceCents := some 0, httpStatus := 200 } ∧
    (0 : ℚ) / 100 ≠ 1/1000 + 1/500 := by
  constructor
  · decide
  · norm_num

/-- C9 amended: the aggregator answers SUCCESS with the `toFixed(2)`
rendering of the double-precision sum of all reported `uiAmount` values:
across 0 accounts (or an absent result list) it reports exactly zero with
a success status, not an error; across 2 accounts it reports their exact
scaled sum whenever that sum is a two-decimal value (1.25 and 2.5 give
3.75), but only the two-decimal rounding otherwise (0.001 and 0.002 give
0.00). -/
theorem balance_toFixed_of_double_sum :
    usdcBalancePOST (some sampleAddress) (.ok (some []))
      = { status := "SUCCESS", balanceCents := some 0, httpStatus := 200 } ∧
    usdcBalancePOST (some sampleAddress) (.ok none)
      = { status := "SUCCESS", balanceCents := some 0, httpStatus := 200 } ∧
    usdcBalancePOST (some sampleAddress) (.ok (some [some ⟨5, 4⟩, some ⟨5, 2⟩]))
      = { status := "SUCCESS", balanceCents := some 375, httpStatus := 200 } ∧
    usdcBalancePOST (some sampleAddress)
        (.ok (some [some (fl64 ⟨1, 1000⟩), some (fl64 ⟨1, 500⟩)]))
      = { status := "SUCCESS", balanceCents := some 0, httpStatus := 200 } := by
  refine ⟨?_, ?_, ?_, ?_⟩ <;> decide

/-- C2 (code bug): with a true aggregated balance of 0.005 USDC and a
configured transfer amount of 0.01, the route's `toFixed(2)` formatting
reports the balance as 0.01; the gate parses that label back and compares
`0.01 < 0.01`, so `hasInsufficientUSDC` stays false, the insufficient
gate does not fire, and the flow proceeds into `transferUSDC`, which
contacts the sender's external signer. -/
theorem insufficient_gate_misses_small_balance :
    (usdcBalancePOST (some sampleAddress) (.ok (some [some (fl64 ⟨1, 200⟩)]))).balanceCents
      = some 1 ∧
    hasInsufficientUSDC (some 1) (fl64 ⟨1, 100⟩) = false ∧
    handleTransferUSDC true (hasInsufficientUSDC (some 1) (fl64 ⟨1, 100⟩))
        (transferUSDC envBenign 1 2 3 4 (fl64 ⟨1, 100⟩))
      = .transferred (transferUSDC envBenign 1 2 3 4 (fl64 ⟨1, 100⟩)) ∧
    hasSdkSign (transferUSDC envBenign 1 2 3 4 (fl64 ⟨1, 100⟩)).trace = true := by
  refine ⟨?_, ?_, ?_, ?_⟩ <;> decide

/-- C1 (code bug): when the recipient's token account is absent, the
attempt throws while serializing the setup transaction (which never
received a recent blockhash or fee payer): nothing is ever submitted to
or confirmed on the ledger for the setup transaction — the trace contains
only the account lookup, no `sendRawTransaction`, no confirmation, and
not even the signing fetch — and transfer construction never begins. -/
theorem absent_ata_no_setup_submission :
    (transferUSDC envNoAta 1 2 3 4 (fl64 ⟨1, 100⟩)).result
      = .error (.setupSerialize ("Transaction recentBlockhash required")) ∧
    (transferUSDC envNoAta 1 2 3 4 (fl64 ⟨1, 100⟩)).trace
      = [Event.getAccountInfo (getAssociatedTokenAddress 4 2)] ∧
    hasSendRaw (transferUSDC envNoAta 1 2 3 4 (fl64 ⟨1, 100⟩)).trace = false ∧
    hasFetchAtaSign (transferUSDC envNoAta 1 2 3 4 (fl64 ⟨1, 100⟩)).trace = false := by
  refine ⟨?_, ?_, ?_, ?_⟩ <;> decide

/-- C7 (code bug): when the recipient's token account exists, no setup
transaction is produced and the attempt proceeds directly to the
transfer (last two conjuncts).  When it is absent, the produced setup
transaction does have a single instruction whose only instruction-level
signer is the sponsor, but its fee-payer field is never assigned — it is
`none`, not the sponsor — and serializing it therefore throws. -/
theorem setup_transaction_fee_payer_unset :
    (ataTransactionOf 3 (getAssociatedTokenAddress 4 2) 2 4).instructions.length = 1 ∧
    ((ataTransactionOf 3 (getAssociatedTokenAddress 4 2) 2 4).instructions.flatMap
        (fun ix => ix.keys)).filter (fun m => m.isSigner)
      = [{ pubkey := 3, isSigner := true, isWritable := true }] ∧
    (ataTransactionOf 3 (getAssociatedTokenAddress 4 2) 2 4).feePayer = none ∧
    Transaction.serialize (ataTransactionOf 3 (getAssociatedTokenAddress 4 2) 2 4) false true
      = .error ("Transaction recentBlockhash required") ∧
    hasFetchAtaSign (transferUSDC envBenign 1 2 3 4 (fl64 ⟨1, 100⟩)).trace = false ∧
    hasSdkSign (transferUSDC envBenign 1 2 3 4 (fl64 ⟨1, 100⟩)).trace = true := by
  refine ⟨?_, ?_, ?_, ?_, ?_, ?_⟩ <;> decide

-- Every throwing exit settles the state with the error message and no
-- success flag.
theorem mkFail_state (e : TransferError) (tr : List Event) :
    stateSettledOK (mkFail e tr).finalState := by
  simp [mkFail, stateSettledOK]

-- The submission stage settles the state correctly in every branch.
theorem afterDevSig_state (env : Env) (dev : PubKey) (tx2 : Transaction) (us ds : String)
    (ev : List Event) : stateSettledOK (afterDevSig env dev tx2 us ds ev).finalState := by
  unfold afterDevSig
  cases Transaction.addSignature tx2 dev (hexToUint8Array ds) with
  | error m => exact mkFail_state _ _
  | ok tx3 =>
    dsimp only
    cases Transaction.serialize tx3 true env.naclOk with
    | error m => exact mkFail_state _ _
    | ok raw =>
      dsimp only
      cases env.confirmErr with
      | some e => exact mkFail_state _ _
      | none => simp [stateSettledOK]

-- The sponsor-signing stage settles the state correctly in every branch.
theorem afterUserSig_state (env : Env) (userA dev : PubKey) (tx1 : Transaction) (us : String)
    (ev : List Event) : stateSettledOK (afterUserSig env userA dev tx1 us ev).finalState := by
  unfold afterUserSig
  cases Transaction.addSignature tx1 userA (hexToUint8Array us) with
  | error m => exact mkFail_state _ _
  | ok tx2 =>
    dsimp only
    cases Transaction.serializeMessage tx2 with
    | error m => exact mkFail_state _ _
    | ok sm =>
      dsimp only
      by_cases h1 : (!env.devSign.ok) = true
      · rw [if_pos h1]
        exact mkFail_state _ _
      · rw [if_neg h1]
        by_cases h2 : (!env.devSign.status == "SUCCESS" || sigFalsy env.devSign.signature) = true
        · rw [if_pos h2]
          exact mkFail_state _ _
        · rw [if_neg h2]
          exact afterDevSig_state _ _ _ _ _ _

-- The builder/sender-signing stage settles the state correctly.
theorem afterAta_state (env : Env) (userA dev uAATA uBATA : PubKey) (amount : Frac)
    (ev : List Event) : stateSettledOK (afterAta env userA dev uAATA uBATA amount ev).finalState := by
  unfold afterAta
  cases env.userSig with
  | none => exact mkFail_state _ _
  | some us => exact afterUserSig_state _ _ _ _ _ _

/-- C10: whenever `transferUSDC` settles — returning a result or
throwing — the exposed `transferState` has `isTransferring` false, and
success and error are mutually exclusive: success is set only with a
`null` error, and a non-null error only with success false. -/
theorem transfer_state_invariant (env : Env) (uA uB dev mint : PubKey) (amount : Frac) :
    stateSettledOK (transferUSDC env uA uB dev mint amount).finalState := by
  unfold transferUSDC
  dsimp only
  split
  · exact afterAta_state _ _ _ _ _ _ _
  · cases Transaction.serialize (ataTransactionOf dev (getAssociatedTokenAddress mint uB) uB mint)
      false env.naclOk with
    | error m => exact mkFail_state _ _
    | ok setupBytes =>
      dsimp only
      by_cases hs : (!env.ataSignOk) = true
      · rw [if_pos hs]
        exact mkFail_state _ _
      · rw [if_neg hs]
        exact afterAta_state _ _ _ _ _ _ _

/-- C10 witness: the settled-state invariant evaluated in the benign
environment. -/
theorem transfer_state_invariant_witness :
    stateSettledOK (transferUSDC envBenign 1 2 3 4 (fl64 ⟨1, 100⟩)).finalState :=
  transfer_state_invariant envBenign 1 2 3 4 (fl64 ⟨1, 100⟩)

-- When the sponsor's signing response is bad, the sponsor-signing stage
-- terminates with a sponsor failure and never submits.
theorem afterUserSig_badDev (env : Env) (userA dev : PubKey) (tx1 : Transaction) (us : String)
    (ev : List Event) (hbad : badDevSign env.devSign = true)
    (hev : hasSendRaw ev = false) (hev2 : hasFetchDevSign ev = false) :
    hasSendRaw (afterUserSig env userA dev tx1 us ev).trace = false ∧
    (hasFetchDevSign (afterUserSig env userA dev tx1 us ev).trace = true →
      resultSponsorFailure (afterUserSig env userA dev tx1 us ev).result = true) := by
  unfold afterUserSig
  cases Transaction.addSignature tx1 userA (hexToUint8Array us) with
  | error m =>
    exact ⟨hev, fun hcon => absurd hcon (by simp [mkFail, hev2])⟩
  | ok tx2 =>
    dsimp only
    cases Transaction.serializeMessage tx2 with
    | error m =>
      exact ⟨hev, fun hcon => absurd hcon (by simp [mkFail, hev2])⟩
    | ok sm =>
      dsimp only
      have hse : hasSendRaw (ev ++ [Event.fetchDevSign (encodeHex sm)]) = false := by
        simp [hasSendRaw, List.any_append] at hev ⊢
        exact hev
      by_cases h1 : (!env.devSign.ok) = true
      · rw [if_pos h1]
        exact ⟨hse, fun _ => rfl⟩
      · rw [if_neg h1]
        by_cases h2 : (!(env.devSign.status == "SUCCESS") || sigFalsy env.devSign.signature) = true
        · rw [if_pos h2]
          exact ⟨hse, fun _ => rfl⟩
        · exfalso
          have hok : env.devSign.ok = true := by
            cases hoc : env.devSign.ok
            · exact absurd (by simp [hoc]) h1
            · rfl
          simp only [badDevSign, hok, Bool.not_true, Bool.false_or] at hbad
          exact h2 hbad

-- Lifting the previous lemma through the builder/sender-signing stage.
theorem afterAta_badDev (env : Env) (userA dev uAATA uBATA : PubKey) (amount : Frac)
    (ev : List Event) (hbad : badDevSign env.devSign = true)
    (hev : hasSendRaw ev = false) (hev2 : hasFetchDevSign ev = false) :
    hasSendRaw (afterAta env userA dev uAATA uBATA amount ev).trace = false ∧
    (hasFetchDevSign (afterAta env userA dev uAATA uBATA amount ev).trace = true →
      resultSponsorFailure (afterAta env userA dev uAATA uBATA amount ev).result = true) := by
  unfold afterAta
  dsimp only
  cases env.userSig with
  | none =>
    dsimp only
    constructor
    · simp [mkFail, hasSendRaw, List.any_append] at hev ⊢
      exact hev
    · intro hcon
      refine absurd hcon ?_
      simp [mkFail, hasFetchDevSign, List.any_append] at hev2 ⊢
      exact hev2
  | some us =>
    dsimp only
    apply afterUserSig_badDev env userA dev _ us _ hbad
    · simp [hasSendRaw, List.any_append] at hev ⊢
      exact hev
    · simp [hasFetchDevSign, List.any_append] at hev2 ⊢
      exact hev2

/-- C5: for every transfer attempt whose sponsor-side signing call
reports failure (non-OK HTTP response, non-success status, or a
missing/empty signature field), no ledger submission
(`sendRawTransaction`) ever occurs, and if the attempt reached the
sponsor-signing call at all, it terminates with the sponsor-signing
failure outcome. -/
theorem sponsor_failure_no_submission (env : Env) (uA uB dev mint : PubKey) (amount : Frac)
    (hbad : badDevSign env.devSign = true) :
    hasSendRaw (transferUSDC env uA uB dev mint amount).trace = false ∧
    (hasFetchDevSign (transferUSDC env uA uB dev mint amount).trace = true →
      resultSponsorFailure (transferUSDC env uA uB dev mint amount).result = true) := by
  unfold transferUSDC
  dsimp only
  split
  · exact afterAta_badDev env uA dev _ _ amount _ hbad (by simp [hasSendRaw])
      (by simp [hasFetchDevSign])
  · cases Transaction.serialize (ataTransactionOf dev (getAssociatedTokenAddress mint uB) uB mint)
      false env.naclOk with
    | error m =>
      exact ⟨by simp [mkFail, hasSendRaw], fun hcon => absurd hcon (by simp [mkFail, hasFetchDevSign])⟩
    | ok setupBytes =>
      dsimp only
      by_cases hs : (!env.ataSignOk) = true
      · rw [if_pos hs]
        exact ⟨by simp [mkFail, hasSendRaw], fun hcon => absurd hcon (by simp [mkFail, hasFetchDevSign])⟩
      · rw [if_neg hs]
        exact afterAta_badDev env uA dev _ _ amount _ hbad (by simp [hasSendRaw])
          (by simp [hasFetchDevSign])

/-- C5 witness: with the sponsor signing endpoint answering a non-OK
HTTP response in an otherwise benign environment, the attempt reaches
the sponsor call, ends in a sponsor-signing failure, and never calls
`sendRawTransaction`. -/
theorem sponsor_failure_no_submission_witness :
    hasSendRaw (transferUSDC envDevSignDown 1 2 3 4 (fl64 ⟨1, 100⟩)).trace = false ∧
    resultSponsorFailure (transferUSDC envDevSignDown 1 2 3 4 (fl64 ⟨1, 100⟩)).result = true :=
  ⟨(sponsor_failure_no_submission envDevSignDown 1 2 3 4 (fl64 ⟨1, 100⟩) (by decide)).1,
   (sponsor_failure_no_submission envDevSignDown 1 2 3 4 (fl64 ⟨1, 100⟩) (by decide)).2 (by decide)⟩

-- Storing a signature value does not change which public keys occupy the
-- signature slots.
theorem mapped_pubkeys (sigs : List SignaturePubkeyPair) (pk : PubKey) (b : List ℕ) :
    (sigs.map (fun p => if p.publicKey == pk then (⟨p.publicKey, some b⟩ : SignaturePubkeyPair) else p)).map
        (fun p => p.publicKey)
      = sigs.map (fun p => p.publicKey) := by
  induction sigs with
  | nil => rfl
  | cons p rest ih =>
    simp only [List.map_cons, ih, List.cons.injEq]
    refine ⟨?_, trivial⟩
    split <;> rfl

-- The compiled message depends on the signatures list only through the
-- public keys of its slots (the fee-payer fallback).
theorem compileMessage_signatures_pubkeys (tx : Transaction) (s1 s2 : List SignaturePubkeyPair)
    (h : s1.map (fun p => p.publicKey) = s2.map (fun p => p.publicKey)) :
    Transaction.compileMessage { tx with signatures := s1 }
      = Transaction.compileMessage { tx with signatures := s2 } := by
  unfold Transaction.compileMessage
  dsimp only
  cases tx.recentBlockhash with
  | none => rfl
  | some bh =>
    dsimp only
    cases tx.feePayer with
    | some fp => rfl
    | none =>
      dsimp only
      cases s1 with
      | nil =>
        cases s2 with
        | nil => rfl
        | cons p2 r2 => simp at h
      | cons p1 r1 =>
        cases s2 with
        | nil => simp at h
        | cons p2 r2 =>
          dsimp only
          simp only [List.map_cons, List.cons.injEq] at h
          rw [h.1]

-- For two signature buffers of the valid 64-byte length, `addSignature`
-- fails or succeeds independently of the signature bytes, and on success
-- the serialized message is independent of them too.
theorem addSignature_indep (tx : Transaction) (pk : PubKey) (b1 b2 : List ℕ)
    (hb1 : b1.length = 64) (hb2 : b2.length = 64) :
    (∃ m, Transaction.addSignature tx pk b1 = .error m
        ∧ Transaction.addSignature tx pk b2 = .error m)
    ∨ (∃ t1 t2, Transaction.addSignature tx pk b1 = .ok t1
        ∧ Transaction.addSignature tx pk b2 = .ok t2
        ∧ Transaction.serializeMessage t1 = Transaction.serializeMessage t2) := by
  unfold Transaction.addSignature
  cases tx.sigSlots with
  | error m => exact .inl ⟨m, rfl, rfl⟩
  | ok sigs =>
    dsimp only
    rw [if_pos hb1, if_pos hb2]
    by_cases h : sigs.any (fun p => p.publicKey == pk) = true
    · refine .inr ⟨_, _, if_pos h, if_pos h, ?_⟩
      unfold Transaction.serializeMessage
      rw [compileMessage_signatures_pubkeys tx _ _
        ((mapped_pubkeys sigs pk b1).trans (mapped_pubkeys sigs pk b2).symm)]
    · exact .inl ⟨_, if_neg h, if_neg h⟩

-- The submission stage emits no sponsor-signing request of its own.
theorem afterDevSig_devHexes (env : Env) (dev : PubKey) (tx : Transaction) (us ds : String)
    (ev : List Event) :
    devSignHexes (afterDevSig env dev tx us ds ev).trace = devSignHexes ev := by
  unfold afterDevSig
  cases Transaction.addSignature tx dev (hexToUint8Array ds) with
  | error m => rfl
  | ok tx3 =>
    dsimp only
    cases Transaction.serialize tx3 true env.naclOk with
    | error m => rfl
    | ok raw =>
      dsimp only
      cases env.confirmErr with
      | some e => simp [mkFail, devSignHexes, List.filterMap_append]
      | none => simp [devSignHexes, List.filterMap_append]

-- The sponsor payload is independent of the sender's signature value
-- (for signatures of the valid 64-byte length).
theorem afterUserSig_devHexes_indep (e1 e2 : Env) (userA dev : PubKey) (tx1 : Transaction)
    (s1 s2 : String) (ev : List Event) (hds : e1.devSign = e2.devSign)
    (hl1 : (hexToUint8Array s1).length = 64) (hl2 : (hexToUint8Array s2).length = 64) :
    devSignHexes (afterUserSig e1 userA dev tx1 s1 ev).trace
      = devSignHexes (afterUserSig e2 userA dev tx1 s2 ev).trace := by
  unfold afterUserSig
  rcases addSignature_indep tx1 userA (hexToUint8Array s1) (hexToUint8Array s2) hl1 hl2 with
    ⟨m, ha1, ha2⟩ | ⟨t1, t2, ha1, ha2, hsm⟩
  · rw [ha1, ha2]
  · rw [ha1, ha2]
    dsimp only
    rw [hsm, hds]
    cases Transaction.serializeMessage t2 with
    | error m => rfl
    | ok sm =>
      dsimp only
      by_cases hok : (!e2.devSign.ok) = true
      · simp only [if_pos hok]
      · simp only [if_neg hok]
        by_cases h2 : (!(e2.devSign.status == "SUCCESS") || sigFalsy e2.devSign.signature) = true
        · simp only [if_pos h2]
        · simp only [if_neg h2]
          rw [afterDevSig_devHexes, afterDevSig_devHexes]

-- Lifting signature independence through the builder stage.
theorem afterAta_devHexes_indep (e1 e2 : Env) (userA dev uAATA uBATA : PubKey) (amount : Frac)
    (ev : List Event) (us1 us2 : String)
    (hu1 : e1.userSig = some us1) (hu2 : e2.userSig = some us2)
    (hl1 : (hexToUint8Array us1).length = 64) (hl2 : (hexToUint8Array us2).length = 64)
    (hbh : e1.blockhash = e2.blockhash) (hds : e1.devSign = e2.devSign) :
    devSignHexes (afterAta e1 userA dev uAATA uBATA amount ev).trace
      = devSignHexes (afterAta e2 userA dev uAATA uBATA amount ev).trace := by
  unfold afterAta
  dsimp only
  rw [hu1, hu2, hbh]
  exact afterUserSig_devHexes_indep e1 e2 userA dev _ us1 us2 _ hds hl1 hl2

/-- C6: the payload sent to the sponsor's signer consists only of the
hex-encoded serialized message bytes of the transaction — its
signature-free message — so it is independent of the sender's signature
value: two runs that differ only in the sender's signature (each a valid
64-byte signature, the length the library's invariant in `addSignature`
enforces and the data model prescribes) send the sponsor identical
message bytes. -/
theorem sponsor_payload_independent_of_sender_signature (env : Env) (uA uB dev mint : PubKey)
    (amount : Frac) (s1 s2 : String)
    (h1 : (hexToUint8Array s1).length = 64) (h2 : (hexToUint8Array s2).length = 64) :
    devSignHexes (transferUSDC { env with userSig := some s1 } uA uB dev mint amount).trace
      = devSignHexes (transferUSDC { env with userSig := some s2 } uA uB dev mint amount).trace := by
  unfold transferUSDC
  dsimp only
  by_cases hA : env.ataExists = true
  · simp only [if_pos hA]
    exact afterAta_devHexes_indep _ _ uA dev _ _ amount _ s1 s2 rfl rfl h1 h2 rfl rfl
  · simp only [if_neg hA]
    cases Transaction.serialize (ataTransactionOf dev (getAssociatedTokenAddress mint uB) uB mint)
      false env.naclOk with
    | error m => rfl
    | ok setupBytes =>
      dsimp only
      by_cases hs : (!env.ataSignOk) = true
      · simp only [if_pos hs]
      · simp only [if_neg hs]
        exact afterAta_devHexes_indep _ _ uA dev _ _ amount _ s1 s2 rfl rfl h1 h2 rfl rfl

/-- C6 witness: two concrete 64-byte sender signatures (all zeros and
all ones) in the otherwise benign environment yield identical
sponsor-signing payload lists. -/
theorem sponsor_payload_independent_of_sender_signature_witness :
    devSignHexes (transferUSDC
        { envBenign with userSig := some (encodeHex (List.replicate 64 0)) }
        1 2 3 4 (fl64 ⟨1, 100⟩)).trace
      = devSignHexes (transferUSDC
        { envBenign with userSig := some (encodeHex (List.replicate 64 1)) }
        1 2 3 4 (fl64 ⟨1, 100⟩)).trace :=
  sponsor_payload_independent_of_sender_signature envBenign 1 2 3 4 (fl64 ⟨1, 100⟩)
    (encodeHex (List.replicate 64 0)) (encodeHex (List.replicate 64 1))
    (by decide) (by decide)
